import Mathlib

/-!
Verification of epan/to_str.c (Wireshark string-conversion routines).

The C code is shallowly embedded: machine integers become Nat (with explicit
masks where overflow/truncation matters), C strings and caller buffers become
List Char (a written buffer region is modelled as the list of characters the
routine stores, including any terminating NUL, which is modelled as
Char.ofNat 0), byte arrays become functions Nat → Nat together with a length
(none models a NULL pointer), and the fatal REPORT_DISSECTOR_BUG path becomes
the error branch of Except String.

External collaborators (GLib, wsutil) are modelled from their documented
semantics: g_strlcpy copies at most size-1 characters and NUL-terminates
unless size is 0 (in which case it writes nothing) and returns the length of
the source string; g_snprintf writes the formatted text truncated to size-1
characters plus NUL (nothing when size is 0) and returns the number of
characters the full text would occupy, not counting the NUL; printf-style
%u / %d rendering of a number is its canonical decimal text (Nat.toDigits 10).
-/

namespace ToStr

/-- NUL terminator byte, as a character. -/
def nulChar : Char := Char.ofNat 0

/-- Characters written by GLib g_strlcpy(dst, src, size): at most size-1
characters of src followed by a NUL; nothing at all when size = 0.
Modelled from the GLib documentation (external collaborator). -/
def g_strlcpy_writes (src : List Char) (size : Nat) : List Char :=
  if size = 0 then [] else src.take (size - 1) ++ [nulChar]

/-- Return value of GLib g_strlcpy: the length of the source string,
regardless of truncation. -/
def g_strlcpy_ret (src : List Char) : Nat := src.length

/-- Characters written by GLib g_snprintf(buf, size, ...) when the fully
formatted text is the list full: the text truncated to size-1 characters
plus a NUL; nothing when size = 0. Modelled from the GLib documentation. -/
def g_snprintf_writes (full : List Char) (size : Nat) : List Char :=
  if size = 0 then [] else full.take (size - 1) ++ [nulChar]

/-- Source line 32: the sentinel diagnostic literal BUF_TOO_SMALL_ERR. -/
def BUF_TOO_SMALL_ERR : List Char := "[Buffer too small]".data

/-- Source line 174: the maximum display length for a byte string. -/
def MAX_BYTE_STR_LEN : Nat := 72

/-- UTF8_HORIZONTAL_ELLIPSIS (wsutil/utf8_entities.h): the single U+2026
glyph appended to truncated hex dumps.  In the C buffer it occupies three
UTF-8 bytes; at the character level modelled here it is one character. -/
def horizontalEllipsis : List Char := [Char.ofNat 8230]

/-- Source lines 43-45: the hex-digit table of low_nibble_of_octet_to_hex.
The C writes it as sixteen character constants only to work around an old
Apple linker bug; its own comment notes it is the 16-character string
written here. -/
def hex_digits : List Char := "0123456789abcdef".data

/-- Source lines 34-48: low_nibble_of_octet_to_hex. -/
def low_nibble_of_octet_to_hex (oct : Nat) : Char :=
  hex_digits.getD (oct &&& 0xF) '0'

/-- Source lines 50-56: byte_to_hex writes two characters through the output
cursor; the emitted characters are returned as a list. -/
def byte_to_hex (dword : Nat) : List Char :=
  [low_nibble_of_octet_to_hex (dword >>> 4), low_nibble_of_octet_to_hex dword]

/-- Source lines 64-70: word_to_hex. -/
def word_to_hex (word : Nat) : List Char :=
  byte_to_hex (word >>> 8) ++ byte_to_hex word

/-- Source lines 94-100: dword_to_hex. -/
def dword_to_hex (dword : Nat) : List Char :=
  word_to_hex (dword >>> 16) ++ word_to_hex dword

/-- Source lines 136-147: bytes_to_hexstr, the loop emitting byte_to_hex for
ad[0], ..., ad[len-1].  The NULL-pointer check is performed by the callers
modelled below, which pass a concrete (non-null) byte function here. -/
def bytes_to_hexstr (ad : Nat → Nat) (len : Nat) : List Char :=
  (List.range len).flatMap (fun i => byte_to_hex (ad i))

/-- Source lines 157-171: bytes_to_hexstr_punct; emits ad[0] and then
punct followed by ad[i] for i = 1, ..., len-1 (callers guarantee len > 0). -/
def bytes_to_hexstr_punct (ad : Nat → Nat) (len : Nat) (punct : Char) :
    List Char :=
  byte_to_hex (ad 0) ++
    (List.range' 1 (len - 1)).flatMap (fun i => punct :: byte_to_hex (ad i))

/-- Source lines 217-242: bytes_to_str.  The returned C string is modelled as
the list of characters before its terminating NUL; the fatal
REPORT_DISSECTOR_BUG on a NULL pointer is the error branch. -/
def bytes_to_str (bd : Option (Nat → Nat)) (bd_len : Nat) :
    Except String (List Char) :=
  match bd with
  | none => Except.error "Null pointer passed to bytes_to_str()"
  | some a =>
    if bd_len = 0 then Except.ok []
    else
      let truncated := MAX_BYTE_STR_LEN / 2 < bd_len
      let n := if truncated then MAX_BYTE_STR_LEN / 2 else bd_len
      Except.ok (bytes_to_hexstr a n ++
        if truncated then horizontalEllipsis else [])

/-- Source lines 183-215: bytestring_to_str.  A zero punct delegates to
bytes_to_str; the zero-length check precedes the NULL-pointer check. -/
def bytestring_to_str (ad : Option (Nat → Nat)) (len : Nat) (punct : Char) :
    Except String (List Char) :=
  if len = 0 then Except.ok []
  else
    match ad with
    | none => Except.error "Null pointer passed to bytestring_to_str()"
    | some a =>
      if punct = nulChar then bytes_to_str (some a) len
      else
        let truncated := MAX_BYTE_STR_LEN / 3 < len
        let buflen := if truncated then MAX_BYTE_STR_LEN / 3 else len
        Except.ok (bytes_to_hexstr_punct a buflen punct ++
          if truncated then punct :: horizontalEllipsis else [])

/-- Source lines 244-259: guint32_to_str_buf_len, the magnitude-threshold
cascade for the decimal digit count of a 32-bit value. -/
def guint32_to_str_buf_len (u : Nat) : Nat :=
  if 1000000000 ≤ u then 10
  else if 100000000 ≤ u then 9
  else if 10000000 ≤ u then 8
  else if 1000000 ≤ u then 7
  else if 100000 ≤ u then 6
  else if 10000 ≤ u then 5
  else if 1000 ≤ u then 4
  else if 100 ≤ u then 3
  else if 10 ≤ u then 2
  else 1

/-- Source lines 261-287: guint64_to_str_buf_len. -/
def guint64_to_str_buf_len (u : Nat) : Nat :=
  if 10000000000000000000 ≤ u then 20
  else if 1000000000000000000 ≤ u then 19
  else if 100000000000000000 ≤ u then 18
  else if 10000000000000000 ≤ u then 17
  else if 1000000000000000 ≤ u then 16
  else if 100000000000000 ≤ u then 15
  else if 10000000000000 ≤ u then 14
  else if 1000000000000 ≤ u then 13
  else if 100000000000 ≤ u then 12
  else if 10000000000 ≤ u then 11
  else if 1000000000 ≤ u then 10
  else if 100000000 ≤ u then 9
  else if 10000000 ≤ u then 8
  else if 1000000 ≤ u then 7
  else if 100000 ≤ u then 6
  else if 10000 ≤ u then 5
  else if 1000 ≤ u then 4
  else if 100 ≤ u then 3
  else if 10 ≤ u then 2
  else 1

/-- Source lines 289-322: the fast_strings table, the decimal text of every
byte value 0-255. -/
def fast_strings : List String := [
  "0", "1", "2", "3", "4", "5", "6", "7",
  "8", "9", "10", "11", "12", "13", "14", "15",
  "16", "17", "18", "19", "20", "21", "22", "23",
  "24", "25", "26", "27", "28", "29", "30", "31",
  "32", "33", "34", "35", "36", "37", "38", "39",
  "40", "41", "42", "43", "44", "45", "46", "47",
  "48", "49", "50", "51", "52", "53", "54", "55",
  "56", "57", "58", "59", "60", "61", "62", "63",
  "64", "65", "66", "67", "68", "69", "70", "71",
  "72", "73", "74", "75", "76", "77", "78", "79",
  "80", "81", "82", "83", "84", "85", "86", "87",
  "88", "89", "90", "91", "92", "93", "94", "95",
  "96", "97", "98", "99", "100", "101", "102", "103",
  "104", "105", "106", "107", "108", "109", "110", "111",
  "112", "113", "114", "115", "116", "117", "118", "119",
  "120", "121", "122", "123", "124", "125", "126", "127",
  "128", "129", "130", "131", "132", "133", "134", "135",
  "136", "137", "138", "139", "140", "141", "142", "143",
  "144", "145", "146", "147", "148", "149", "150", "151",
  "152", "153", "154", "155", "156", "157", "158", "159",
  "160", "161", "162", "163", "164", "165", "166", "167",
  "168", "169", "170", "171", "172", "173", "174", "175",
  "176", "177", "178", "179", "180", "181", "182", "183",
  "184", "185", "186", "187", "188", "189", "190", "191",
  "192", "193", "194", "195", "196", "197", "198", "199",
  "200", "201", "202", "203", "204", "205", "206", "207",
  "208", "209", "210", "211", "212", "213", "214", "215",
  "216", "217", "218", "219", "220", "221", "222", "223",
  "224", "225", "226", "227", "228", "229", "230", "231",
  "232", "233", "234", "235", "236", "237", "238", "239",
  "240", "241", "242", "243", "244", "245", "246", "247",
  "248", "249", "250", "251", "252", "253", "254", "255"]

/-- Source lines 1249-1256: the two-digits-per-iteration loop of
uint_to_str_back.  The buffer to the right of the cursor is the accumulator;
writing through *(--ptr) prepends a character. -/
def uint_to_str_back_loop (value : Nat) (acc : List Char) : List Char :=
  if 10 ≤ value then
    let p := (fast_strings.getD (100 + value % 100) "").data
    uint_to_str_back_loop (value / 100) (p.getD 1 ' ' :: p.getD 2 ' ' :: acc)
  else if value ≠ 0 then Char.ofNat (value ||| 48) :: acc
  else acc
termination_by value
decreasing_by exact Nat.div_lt_self (by omega) (by omega)

/-- Source lines 1240-1262: uint_to_str_back.  The special case writes a
single zero character before the loop runs. -/
def uint_to_str_back (value : Nat) (acc : List Char) : List Char :=
  uint_to_str_back_loop value (if value = 0 then '0' :: acc else acc)

/-- Source lines 1273-1280: the loop of uint64_to_str_back (same body as the
32-bit loop). -/
def uint64_to_str_back_loop (value : Nat) (acc : List Char) : List Char :=
  if 10 ≤ value then
    let p := (fast_strings.getD (100 + value % 100) "").data
    uint64_to_str_back_loop (value / 100) (p.getD 1 ' ' :: p.getD 2 ' ' :: acc)
  else if value ≠ 0 then Char.ofNat ((value &&& 0xF) ||| 48) :: acc
  else acc
termination_by value
decreasing_by exact Nat.div_lt_self (by omega) (by omega)

/-- Source lines 1264-1287: uint64_to_str_back. -/
def uint64_to_str_back (value : Nat) (acc : List Char) : List Char :=
  uint64_to_str_back_loop value (if value = 0 then '0' :: acc else acc)

/-- Source lines 324-339: guint32_to_str_buf.  The result is the region of
the caller buffer the routine writes: the backward-written digits followed by
the NUL on success, the g_strlcpy of the sentinel on capacity failure. -/
def guint32_to_str_buf (u : Nat) (buf_len : Nat) : List Char :=
  let str_len := guint32_to_str_buf_len u + 1
  if buf_len < str_len then g_strlcpy_writes BUF_TOO_SMALL_ERR buf_len
  else uint_to_str_back u [nulChar]

/-- Source lines 341-356: guint64_to_str_buf. -/
def guint64_to_str_buf (u : Nat) (buf_len : Nat) : List Char :=
  let str_len := guint64_to_str_buf_len u + 1
  if buf_len < str_len then g_strlcpy_writes BUF_TOO_SMALL_ERR buf_len
  else uint64_to_str_back u [nulChar]

/-- Source line 751: PLURALIZE. -/
def PLURALIZE (n : Nat) : List Char := if 1 < n then "s".data else []

/-- Source line 752: COMMA. -/
def COMMA (do_it : Bool) : List Char := if do_it then ", ".data else []

/-- Decimal text of a number as produced by printf %u (external formatter):
the canonical decimal rendering. -/
def decStr (n : Nat) : List Char := Nat.toDigits 10 n

/-- Zero left-padding to a minimum width, as produced by printf %0*u. -/
def padZeros (width : Nat) (l : List Char) : List Char :=
  List.replicate (width - l.length) '0' ++ l

/-- Source lines 769-804: unsigned_time_secs_to_str_buf.  The wmem string
buffer is the accumulator buf; each wmem_strbuf_append_printf appends its
formatted text. -/
def unsigned_time_secs_to_str_buf (time_val : Nat) (frac : Nat)
    (is_nsecs : Bool) (buf : List Char) : List Char :=
  let secs := time_val % 60
  let tv1 := time_val / 60
  let mins := tv1 % 60
  let tv2 := tv1 / 60
  let hours := tv2 % 24
  let days := tv2 / 24
  let st1 : List Char × Bool :=
    if days ≠ 0 then (buf ++ decStr days ++ " day".data ++ PLURALIZE days, true)
    else (buf, false)
  let st2 : List Char × Bool :=
    if hours ≠ 0 then
      (st1.1 ++ COMMA st1.2 ++ decStr hours ++ " hour".data ++ PLURALIZE hours,
        true)
    else st1
  let st3 : List Char × Bool :=
    if mins ≠ 0 then
      (st2.1 ++ COMMA st2.2 ++ decStr mins ++ " minute".data ++ PLURALIZE mins,
        true)
    else st2
  if secs ≠ 0 ∨ frac ≠ 0 then
    if frac ≠ 0 then
      st3.1 ++ COMMA st3.2 ++ decStr secs ++ ".".data ++
        padZeros (if is_nsecs then 9 else 3) (decStr frac) ++ " seconds".data
    else st3.1 ++ COMMA st3.2 ++ decStr secs ++ " second".data ++ PLURALIZE secs
  else st3.1

/-- Source lines 829-859: signed_time_secs_to_str_buf.  G_MININT32 is
-2147483648 and G_MAXUINT32 is 4294967295 (GLib constants); the negation on
the non-minimum branch is exact because |time_val| then fits in 32 bits. -/
def signed_time_secs_to_str_buf (time_val : Int) (frac : Nat)
    (is_nsecs : Bool) (buf : List Char) : List Char :=
  if time_val < 0 then
    let buf := buf ++ "-".data
    if time_val = -2147483648 then
      unsigned_time_secs_to_str_buf 4294967295 frac is_nsecs buf
    else
      unsigned_time_secs_to_str_buf (-time_val).toNat frac is_nsecs buf
  else unsigned_time_secs_to_str_buf time_val.toNat frac is_nsecs buf

/-- Source lines 1070-1086: ip6_to_str_buf_with_pfx.  The address text
produced by the external converter ws_inet_ntop6 is passed in as addrText;
the result is the pair of the characters written into the caller buffer and
the returned int. -/
def ip6_to_str_buf_with_pfx (addrText : List Char) (buf_size : Nat)
    (pfx : Option (List Char)) : List Char × Int :=
  let p := pfx.getD []
  let full := p ++ addrText
  let bytes : Int := full.length
  let written := g_snprintf_writes full buf_size
  let len : Int := bytes - 1
  if (buf_size : Int) - 1 < len then
    (g_strlcpy_writes BUF_TOO_SMALL_ERR buf_size,
      g_strlcpy_ret BUF_TOO_SMALL_ERR)
  else (written, len)

/-- Modelled from the spec: GUID_STR_LEN, the canonical GUID text length 36
plus the terminator, is declared in epan/guid-utils.h, which is not part of
the given sources; the spec fixes the capacity threshold at 37. -/
def GUID_STR_LEN : Nat := 37

/-- Modelled from the spec: the e_guid_t layout (epan/guid-utils.h is not
part of the given sources): a 32-bit word, two 16-bit words and 8 bytes. -/
structure EGuid where
  data1 : Nat
  data2 : Nat
  data3 : Nat
  data4 : Nat → Nat

/-- Source lines 1112-1135: guid_to_str_buf.  The result is the written
buffer region: the 36-character text plus NUL on success, the g_strlcpy of
the sentinel on capacity failure. -/
def guid_to_str_buf (guid : EGuid) (buf_len : Nat) : List Char :=
  if buf_len < GUID_STR_LEN then g_strlcpy_writes BUF_TOO_SMALL_ERR buf_len
  else
    dword_to_hex guid.data1 ++ "-".data ++
    word_to_hex guid.data2 ++ "-".data ++
    word_to_hex guid.data3 ++ "-".data ++
    bytes_to_hexstr (fun i => guid.data4 i) 2 ++ "-".data ++
    bytes_to_hexstr (fun i => guid.data4 (2 + i)) 6 ++ [nulChar]

/-- Source lines 985-992 and 1015-1022 use this guard: a space is inserted
before a bit position that is a nonzero multiple of 4. -/
def spaceIfMul4 (bit : Nat) : List Char :=
  if bit ≠ 0 ∧ bit % 4 = 0 then [' '] else []

/-- Source lines 1000-1003 use this guard: an additional space is inserted
before a bit position that is a nonzero multiple of 8. -/
def spaceIfMul8 (bit : Nat) : List Char :=
  if bit ≠ 0 ∧ bit % 8 = 0 then [' '] else []

/-- Source lines 985-992: the first loop of decode_bits_in_field, emitting a
placeholder dot per skipped bit while counting bit up to stop. -/
def decode_bits_dots (bit stop : Nat) (acc : List Char) : List Char :=
  if bit < stop then
    decode_bits_dots (bit + 1) stop (acc ++ spaceIfMul4 bit ++ ['.'])
  else acc
termination_by stop - bit

/-- Source lines 995-1013: the value loop of decode_bits_in_field; i counts
iterations up to max_bits, bit is the running bit position, mask the shifting
selector.  Returns the text so far and the final bit counter. -/
def decode_bits_value (i max_bits bit mask value : Nat) (acc : List Char) :
    List Char × Nat :=
  if i < max_bits then
    let acc := acc ++ spaceIfMul4 bit ++ spaceIfMul8 bit
    let acc := acc ++ [if value &&& mask ≠ 0 then '1' else '0']
    decode_bits_value (i + 1) max_bits (bit + 1) (mask >>> 1) value acc
  else (acc, bit)
termination_by max_bits - i

/-- Source lines 1015-1022: the trailing-padding loop of
decode_bits_in_field, emitting dots until bit reaches a multiple of 8. -/
def decode_bits_pad (bit : Nat) (acc : List Char) : List Char :=
  if bit % 8 ≠ 0 then
    decode_bits_pad (bit + 1) (acc ++ spaceIfMul4 bit ++ ['.'])
  else acc
termination_by (8 - bit % 8) % 8
decreasing_by omega

/-- Source line 981: the shift distance max_bits - 1 used to build the
initial mask, as the signed quantity the C program computes. -/
def decode_bits_mask_shift (no_of_bits : Int) : Int :=
  min 64 no_of_bits - 1

/-- Source lines 972-1024: decode_bits_in_field.  The C shift
1 << (max_bits - 1) is defined only for a shift distance in [0, 63], which
holds exactly when no_of_bits is at least 1 (claim C10); the embedding takes
the distance through Int.toNat. -/
def decode_bits_in_field (bit_offset : Nat) (no_of_bits : Int) (value : Nat) :
    List Char :=
  let max_bits : Int := min 64 no_of_bits
  let mask : Nat := 1 <<< (decode_bits_mask_shift no_of_bits).toNat
  let s1 := decode_bits_dots 0 (bit_offset &&& 0x07) []
  let s2 := decode_bits_value 0 max_bits.toNat (bit_offset &&& 0x07) mask
    value s1
  decode_bits_pad s2.2 s2.1

/-! ### Specification-side definitions

The following definitions are written from the spec's words, for comparison
with the embedded code; they are never taken from the source. -/

/-- Canonical two-character lowercase hex text of a byte value. -/
def specHexByte (b : Nat) : List Char :=
  [Nat.digitChar (b / 16), Nat.digitChar (b % 16)]

/-- Canonical unpunctuated hex dump of the first len bytes. -/
def specHexDump (a : Nat → Nat) (len : Nat) : List Char :=
  (List.range len).flatMap (fun i => specHexByte (a i))

/-- Canonical fixed-width lowercase hex text of a value, width nibbles, most
significant nibble first. -/
def specHexFixed (v width : Nat) : List Char :=
  (List.range width).map (fun i => Nat.digitChar (v / 16 ^ (width - 1 - i) % 16))

/-- Canonical 36-character hyphenated GUID text from the spec: 8-4-4-4-12
lowercase hex digits separated by literal hyphens. -/
def specGuidText (guid : EGuid) : List Char :=
  specHexFixed guid.data1 8 ++ "-".data ++
  specHexFixed guid.data2 4 ++ "-".data ++
  specHexFixed guid.data3 4 ++ "-".data ++
  specHexDump (fun i => guid.data4 i) 2 ++ "-".data ++
  specHexDump (fun i => guid.data4 (2 + i)) 6

/-- Decimal parser from the spec's round-trip property: read the characters
forward, most significant digit first. -/
def specParseDec (l : List Char) : Nat :=
  l.foldl (fun a c => 10 * a + (c.toNat - 48)) 0

/-- Spacing rule of the spec: a space before every bit position that is a
nonzero multiple of 4, and an additional space before every bit position
that is a nonzero multiple of 8. -/
def specBitSpacing (j : Nat) : List Char := spaceIfMul4 j ++ spaceIfMul8 j

/-- Character at bit position j of the bit-field picture from the spec: a
placeholder dot outside the field, otherwise the field's bit with the most
significant bit first. -/
def specBitChar (offset mb value j : Nat) : Char :=
  if j < offset ∨ offset + mb ≤ j then '.'
  else if value.testBit (mb - 1 - (j - offset)) then '1' else '0'

/-- Bit-field picture from the spec: offset placeholders, then min(64, width)
bits, then placeholders padding the final byte to a multiple of 8, with the
spacing rule applied at every position. -/
def specBitfield (offset mb value : Nat) : List Char :=
  (List.range ((offset + mb + 7) / 8 * 8)).flatMap
    (fun j => specBitSpacing j ++ [specBitChar offset mb value j])

/-! ### Correctness of the backward decimal writer -/

theorem fast_strings_digit {r : Nat} (h : r < 100) :
    (fast_strings.getD (100 + r) "").data.getD 1 ' ' = Nat.digitChar (r / 10) ∧
    (fast_strings.getD (100 + r) "").data.getD 2 ' ' = Nat.digitChar (r % 10) := by
  interval_cases r <;> exact ⟨rfl, rfl⟩

theorem uint_to_str_back_loop_eq (v : Nat) :
    ∀ acc, uint_to_str_back_loop v acc =
      ((Nat.digits 10 v).map Nat.digitChar).reverse ++ acc := by
  induction v using Nat.strong_induction_on with
  | _ v ih =>
    intro acc
    rw [uint_to_str_back_loop]
    by_cases h10 : 10 ≤ v
    · rw [if_pos h10]
      rw [ih (v / 100) (Nat.div_lt_self (by omega) (by omega)) _]
      have hr : v % 100 < 100 := Nat.mod_lt _ (by omega)
      rw [(fast_strings_digit hr).1, (fast_strings_digit hr).2]
      rw [Nat.digits_def' (by norm_num : (1:Nat) < 10) (by omega : 0 < v)]
      rw [Nat.digits_def' (by norm_num : (1:Nat) < 10)
        (by omega : 0 < v / 10)]
      have e1 : v / 10 / 10 = v / 100 := by omega
      have e2 : v % 100 / 10 = v / 10 % 10 := by omega
      have e3 : v % 100 % 10 = v % 10 := by omega
      rw [e1, e2, e3]
      simp
    · rw [if_neg h10]
      by_cases h0 : v = 0
      · simp [h0]
      · rw [if_pos h0]
        have : Char.ofNat (v ||| 48) = Nat.digitChar v := by
          interval_cases v <;> rfl
        rw [this, Nat.digits_def' (by norm_num : (1:Nat) < 10) (by omega : 0 < v)]
        rw [Nat.div_eq_of_lt (by omega), Nat.digits_zero, Nat.mod_eq_of_lt (by omega)]
        simp

theorem toDigitsCore_eq_digits :
    ∀ (fuel n : Nat) (ds : List Char), n < fuel → 0 < n →
      Nat.toDigitsCore 10 fuel n ds =
        ((Nat.digits 10 n).map Nat.digitChar).reverse ++ ds := by
  intro fuel
  induction fuel with
  | zero => omega
  | succ f ih =>
    intro n ds hf hn
    rw [Nat.toDigitsCore]
    by_cases hq : n / 10 = 0
    · have hlt : n < 10 := by omega
      rw [if_pos hq]
      rw [Nat.digits_def' (by norm_num : (1:Nat) < 10) hn, hq, Nat.digits_zero,
        Nat.mod_eq_of_lt hlt]
      simp
    · rw [if_neg hq]
      rw [ih (n / 10) _ (by omega) (by omega)]
      rw [Nat.digits_def' (by norm_num : (1:Nat) < 10) hn]
      simp

theorem toDigits_eq_digits {n : Nat} (hn : 0 < n) :
    Nat.toDigits 10 n = ((Nat.digits 10 n).map Nat.digitChar).reverse := by
  rw [Nat.toDigits, toDigitsCore_eq_digits (n + 1) n [] (Nat.lt_succ_self n) hn,
    List.append_nil]

theorem uint_to_str_back_eq (v : Nat) (acc : List Char) :
    uint_to_str_back v acc = Nat.toDigits 10 v ++ acc := by
  rw [uint_to_str_back]
  by_cases h0 : v = 0
  · subst h0
    rw [if_pos rfl, uint_to_str_back_loop_eq]
    simp only [Nat.digits_zero, List.map_nil, List.reverse_nil, List.nil_append]
    rfl
  · rw [if_neg h0, uint_to_str_back_loop_eq, toDigits_eq_digits (by omega : 0 < v)]

theorem uint64_to_str_back_loop_eq_loop (v : Nat) :
    ∀ acc, uint64_to_str_back_loop v acc = uint_to_str_back_loop v acc := by
  induction v using Nat.strong_induction_on with
  | _ v ih =>
    intro acc
    rw [uint64_to_str_back_loop, uint_to_str_back_loop]
    by_cases h10 : 10 ≤ v
    · rw [if_pos h10, if_pos h10, ih (v / 100) (Nat.div_lt_self (by omega) (by omega))]
    · rw [if_neg h10, if_neg h10]
      by_cases h0 : v = 0
      · simp [h0]
      · rw [if_pos h0, if_pos h0]
        interval_cases v <;> rfl

theorem uint64_to_str_back_eq (v : Nat) (acc : List Char) :
    uint64_to_str_back v acc = Nat.toDigits 10 v ++ acc := by
  rw [uint64_to_str_back, uint64_to_str_back_loop_eq_loop, ← uint_to_str_back,
    uint_to_str_back_eq]

theorem toDigits_length_eq {u k low high : Nat} (hk : 0 < k)
    (e1 : 10 ^ (k - 1) = low) (e2 : 10 ^ k = high)
    (h1 : low ≤ u) (h2 : u < high) : (Nat.toDigits 10 u).length = k := by
  have hu : 0 < u := by
    have : (0:Nat) < 10 ^ (k - 1) := Nat.pos_pow_of_pos _ (by omega)
    omega
  rw [toDigits_eq_digits hu, List.length_reverse, List.length_map]
  have hlen1 : u < 10 ^ (Nat.digits 10 u).length :=
    Nat.lt_base_pow_length_digits (by norm_num)
  have hlen2 : 10 ^ (Nat.digits 10 u).length ≤ 10 * u :=
    Nat.base_pow_length_digits_le 10 u (by norm_num) (by omega)
  have hlo : k - 1 < (Nat.digits 10 u).length := by
    rw [← Nat.pow_lt_pow_iff_right (by norm_num : 1 < 10)]
    omega
  have hhi : (Nat.digits 10 u).length < k + 1 := by
    rw [← Nat.pow_lt_pow_iff_right (by norm_num : 1 < 10)]
    have : 10 * u < 10 ^ (k + 1) := by
      rw [Nat.pow_succ, Nat.mul_comm (10 ^ k) 10]
      omega
    omega
  omega

theorem guint32_to_str_buf_len_eq {u : Nat} (hu : u < 2 ^ 32) :
    guint32_to_str_buf_len u = (Nat.toDigits 10 u).length := by
  have hu10 : u < 10 ^ 10 := lt_of_lt_of_le hu (by norm_num)
  unfold guint32_to_str_buf_len
  by_cases h1 : 1000000000 ≤ u
  · rw [if_pos h1]
    exact (toDigits_length_eq (by norm_num) (by norm_num) (by norm_num) h1 hu10).symm
  · rw [if_neg h1]
    by_cases h2 : 100000000 ≤ u
    · rw [if_pos h2]
      exact (toDigits_length_eq (by norm_num) (by norm_num) (by norm_num) h2 (show u < 1000000000 by omega)).symm
    · rw [if_neg h2]
      by_cases h3 : 10000000 ≤ u
      · rw [if_pos h3]
        exact (toDigits_length_eq (by norm_num) (by norm_num) (by norm_num) h3 (show u < 100000000 by omega)).symm
      · rw [if_neg h3]
        by_cases h4 : 1000000 ≤ u
        · rw [if_pos h4]
          exact (toDigits_length_eq (by norm_num) (by norm_num) (by norm_num) h4 (show u < 10000000 by omega)).symm
        · rw [if_neg h4]
          by_cases h5 : 100000 ≤ u
          · rw [if_pos h5]
            exact (toDigits_length_eq (by norm_num) (by norm_num) (by norm_num) h5 (show u < 1000000 by omega)).symm
          · rw [if_neg h5]
            by_cases h6 : 10000 ≤ u
            · rw [if_pos h6]
              exact (toDigits_length_eq (by norm_num) (by norm_num) (by norm_num) h6 (show u < 100000 by omega)).symm
            · rw [if_neg h6]
              by_cases h7 : 1000 ≤ u
              · rw [if_pos h7]
                exact (toDigits_length_eq (by norm_num) (by norm_num) (by norm_num) h7 (show u < 10000 by omega)).symm
              · rw [if_neg h7]
                by_cases h8 : 100 ≤ u
                · rw [if_pos h8]
                  exact (toDigits_length_eq (by norm_num) (by norm_num) (by norm_num) h8 (show u < 1000 by omega)).symm
                · rw [if_neg h8]
                  by_cases h9 : 10 ≤ u
                  · rw [if_pos h9]
                    exact (toDigits_length_eq (by norm_num) (by norm_num) (by norm_num) h9 (show u < 100 by omega)).symm
                  · rw [if_neg h9]
                    by_cases h0 : u = 0
                    · subst h0
                      rfl
                    · exact (toDigits_length_eq (by norm_num) (by norm_num) (by norm_num) (show 1 ≤ u by omega) (show u < 10 by omega)).symm

theorem guint64_to_str_buf_len_eq {u : Nat} (hu : u < 2 ^ 64) :
    guint64_to_str_buf_len u = (Nat.toDigits 10 u).length := by
  have hu20 : u < 10 ^ 20 := lt_of_lt_of_le hu (by norm_num)
  unfold guint64_to_str_buf_len
  by_cases h1 : 10000000000000000000 ≤ u
  · rw [if_pos h1]
    exact (toDigits_length_eq (by norm_num) (by norm_num) (by norm_num) h1 hu20).symm
  · rw [if_neg h1]
    by_cases h2 : 1000000000000000000 ≤ u
    · rw [if_pos h2]
      exact (toDigits_length_eq (by norm_num) (by norm_num) (by norm_num) h2 (show u < 10000000000000000000 by omega)).symm
    · rw [if_neg h2]
      by_cases h3 : 100000000000000000 ≤ u
      · rw [if_pos h3]
        exact (toDigits_length_eq (by norm_num) (by norm_num) (by norm_num) h3 (show u < 1000000000000000000 by omega)).symm
      · rw [if_neg h3]
        by_cases h4 : 10000000000000000 ≤ u
        · rw [if_pos h4]
          exact (toDigits_length_eq (by norm_num) (by norm_num) (by norm_num) h4 (show u < 100000000000000000 by omega)).symm
        · rw [if_neg h4]
          by_cases h5 : 1000000000000000 ≤ u
          · rw [if_pos h5]
            exact (toDigits_length_eq (by norm_num) (by norm_num) (by norm_num) h5 (show u < 10000000000000000 by omega)).symm
          · rw [if_neg h5]
            by_cases h6 : 100000000000000 ≤ u
            · rw [if_pos h6]
              exact (toDigits_length_eq (by norm_num) (by norm_num) (by norm_num) h6 (show u < 1000000000000000 by omega)).symm
            · rw [if_neg h6]
              by_cases h7 : 10000000000000 ≤ u
              · rw [if_pos h7]
                exact (toDigits_length_eq (by norm_num) (by norm_num) (by norm_num) h7 (show u < 100000000000000 by omega)).symm
              · rw [if_neg h7]
                by_cases h8 : 1000000000000 ≤ u
                · rw [if_pos h8]
                  exact (toDigits_length_eq (by norm_num) (by norm_num) (by norm_num) h8 (show u < 10000000000000 by omega)).symm
                · rw [if_neg h8]
                  by_cases h9 : 100000000000 ≤ u
                  · rw [if_pos h9]
                    exact (toDigits_length_eq (by norm_num) (by norm_num) (by norm_num) h9 (show u < 1000000000000 by omega)).symm
                  · rw [if_neg h9]
                    by_cases h10 : 10000000000 ≤ u
                    · rw [if_pos h10]
                      exact (toDigits_length_eq (by norm_num) (by norm_num) (by norm_num) h10 (show u < 100000000000 by omega)).symm
                    · rw [if_neg h10]
                      by_cases h11 : 1000000000 ≤ u
                      · rw [if_pos h11]
                        exact (toDigits_length_eq (by norm_num) (by norm_num) (by norm_num) h11 (show u < 10000000000 by omega)).symm
                      · rw [if_neg h11]
                        by_cases h12 : 100000000 ≤ u
                        · rw [if_pos h12]
                          exact (toDigits_length_eq (by norm_num) (by norm_num) (by norm_num) h12 (show u < 1000000000 by omega)).symm
                        · rw [if_neg h12]
                          by_cases h13 : 10000000 ≤ u
                          · rw [if_pos h13]
                            exact (toDigits_length_eq (by norm_num) (by norm_num) (by norm_num) h13 (show u < 100000000 by omega)).symm
                          · rw [if_neg h13]
                            by_cases h14 : 1000000 ≤ u
                            · rw [if_pos h14]
                              exact (toDigits_length_eq (by norm_num) (by norm_num) (by norm_num) h14 (show u < 10000000 by omega)).symm
                            · rw [if_neg h14]
                              by_cases h15 : 100000 ≤ u
                              · rw [if_pos h15]
                                exact (toDigits_length_eq (by norm_num) (by norm_num) (by norm_num) h15 (show u < 1000000 by omega)).symm
                              · rw [if_neg h15]
                                by_cases h16 : 10000 ≤ u
                                · rw [if_pos h16]
                                  exact (toDigits_length_eq (by norm_num) (by norm_num) (by norm_num) h16 (show u < 100000 by omega)).symm
                                · rw [if_neg h16]
                                  by_cases h17 : 1000 ≤ u
                                  · rw [if_pos h17]
                                    exact (toDigits_length_eq (by norm_num) (by norm_num) (by norm_num) h17 (show u < 10000 by omega)).symm
                                  · rw [if_neg h17]
                                    by_cases h18 : 100 ≤ u
                                    · rw [if_pos h18]
                                      exact (toDigits_length_eq (by norm_num) (by norm_num) (by norm_num) h18 (show u < 1000 by omega)).symm
                                    · rw [if_neg h18]
                                      by_cases h19 : 10 ≤ u
                                      · rw [if_pos h19]
                                        exact (toDigits_length_eq (by norm_num) (by norm_num) (by norm_num) h19 (show u < 100 by omega)).symm
                                      · rw [if_neg h19]
                                        by_cases h0 : u = 0
                                        · subst h0
                                          rfl
                                        · exact (toDigits_length_eq (by norm_num) (by norm_num) (by norm_num) (show 1 ≤ u by omega) (show u < 10 by omega)).symm

theorem specParseDec_revmap (l : List Nat) (hl : ∀ d ∈ l, d < 10) :
    ∀ a : Nat, List.foldl (fun a c => 10 * a + (c.toNat - 48)) a
      ((l.map Nat.digitChar).reverse) = a * 10 ^ l.length + Nat.ofDigits 10 l := by
  induction l with
  | nil => intro a; simp [Nat.ofDigits]
  | cons d t ih =>
    intro a
    have hd : d < 10 := hl d (List.mem_cons_self d t)
    have hdc : (Nat.digitChar d).toNat - 48 = d := by interval_cases d <;> rfl
    simp only [List.map_cons, List.reverse_cons, List.foldl_append, List.foldl_cons,
      List.foldl_nil]
    rw [ih (fun x hx => hl x (List.mem_cons_of_mem d hx)) a, hdc, Nat.ofDigits_cons]
    simp [List.length_cons, Nat.pow_succ]
    ring

theorem specParseDec_toDigits (v : Nat) : specParseDec (Nat.toDigits 10 v) = v := by
  by_cases h0 : v = 0
  · subst h0
    rfl
  · rw [toDigits_eq_digits (by omega : 0 < v)]
    unfold specParseDec
    rw [specParseDec_revmap (Nat.digits 10 v)
      (fun d hd => Nat.digits_lt_base (by norm_num) hd) 0]
    simp [Nat.ofDigits_digits]

/-- C1: guint32_to_str_buf_len equals the length of the canonical decimal
rendering of a 32-bit value, and guint32_to_str_buf writes that rendering
plus a NUL whenever the capacity is at least digit count + 1, while a
smaller capacity receives the sentinel diagnostic (truncated to fit) and not
the number. -/
theorem guint32_to_str_buf_correct (u : Nat) (hu : u < 2 ^ 32) (buf_len : Nat) :
    guint32_to_str_buf_len u = (Nat.toDigits 10 u).length ∧
    (guint32_to_str_buf_len u + 1 ≤ buf_len →
      guint32_to_str_buf u buf_len = Nat.toDigits 10 u ++ [nulChar]) ∧
    (buf_len < guint32_to_str_buf_len u + 1 → 1 ≤ buf_len →
      guint32_to_str_buf u buf_len =
        BUF_TOO_SMALL_ERR.take (buf_len - 1) ++ [nulChar]) := by
  refine ⟨guint32_to_str_buf_len_eq hu, ?_, ?_⟩
  · intro h
    unfold guint32_to_str_buf
    rw [if_neg (by omega)]
    exact uint_to_str_back_eq u [nulChar]
  · intro h h1
    unfold guint32_to_str_buf
    rw [if_pos (by omega)]
    unfold g_strlcpy_writes
    rw [if_neg (by omega)]

/-- C1 witness: 4294967295 with capacity 11 yields the decimal text plus
NUL; with capacity 10 it yields the truncated sentinel. -/
theorem guint32_to_str_buf_correct_witness :
    (4294967295 < 2 ^ 32 ∧ guint32_to_str_buf_len 4294967295 + 1 ≤ 11 ∧
      guint32_to_str_buf 4294967295 11 =
        Nat.toDigits 10 4294967295 ++ [nulChar]) ∧
    (10 < guint32_to_str_buf_len 4294967295 + 1 ∧
      guint32_to_str_buf 4294967295 10 =
        BUF_TOO_SMALL_ERR.take (10 - 1) ++ [nulChar]) :=
  ⟨⟨by decide, by decide,
    (guint32_to_str_buf_correct 4294967295 (by decide) 11).2.1 (by decide)⟩,
   ⟨by decide,
    (guint32_to_str_buf_correct 4294967295 (by decide) 10).2.2 (by decide)
      (by decide)⟩⟩

/-- C7: the backward writers produce exactly the canonical decimal text
(read forward from the returned position), the decimal parse of that text
recovers the value, and zero writes the single character 0. -/
theorem uint_to_str_back_roundtrip :
    (∀ v : Nat, v < 2 ^ 32 →
      uint_to_str_back v [] = Nat.toDigits 10 v ∧
      specParseDec (uint_to_str_back v []) = v) ∧
    (∀ v : Nat, v < 2 ^ 64 →
      uint64_to_str_back v [] = Nat.toDigits 10 v ∧
      specParseDec (uint64_to_str_back v []) = v) ∧
    uint_to_str_back 0 [] = ['0'] ∧ uint64_to_str_back 0 [] = ['0'] := by
  have h32 : ∀ v : Nat, uint_to_str_back v [] = Nat.toDigits 10 v := fun v => by
    rw [uint_to_str_back_eq, List.append_nil]
  have h64 : ∀ v : Nat, uint64_to_str_back v [] = Nat.toDigits 10 v := fun v => by
    rw [uint64_to_str_back_eq, List.append_nil]
  exact ⟨fun v _ => ⟨h32 v, by rw [h32 v]; exact specParseDec_toDigits v⟩,
    fun v _ => ⟨h64 v, by rw [h64 v]; exact specParseDec_toDigits v⟩,
    h32 0, h64 0⟩

/-- C7 witness: round trip at the extreme 32-bit and 64-bit values. -/
theorem uint_to_str_back_roundtrip_witness :
    (4294967295 < 2 ^ 32 ∧
      specParseDec (uint_to_str_back 4294967295 []) = 4294967295) ∧
    (18446744073709551615 < 2 ^ 64 ∧
      specParseDec (uint64_to_str_back 18446744073709551615 []) =
        18446744073709551615) :=
  ⟨⟨by decide, (uint_to_str_back_roundtrip.1 4294967295 (by decide)).2⟩,
   ⟨by decide, (uint_to_str_back_roundtrip.2.1 18446744073709551615
      (by decide)).2⟩⟩

/-- C5 counterexample: with declared capacity 0 the routines write nothing
at all, so no NUL terminator lies within the declared capacity. -/
theorem str_buf_capacity_zero_counterexample :
    guint32_to_str_buf 5 0 = [] ∧ guint64_to_str_buf 5 0 = [] ∧
    nulChar ∉ guint32_to_str_buf 5 0 ∧ nulChar ∉ guint64_to_str_buf 5 0 := by
  refine ⟨rfl, rfl, ?_, ?_⟩ <;> decide

/-- C5 (amended): for every capacity the routines write at most the declared
capacity; whenever the capacity is at least 1 the written region ends in a
NUL, and on capacity failure it is exactly the sentinel literal truncated to
the capacity; at capacity 0 nothing is written. -/
theorem str_buf_always_terminated (u v cap : Nat) (hu : u < 2 ^ 32)
    (hv : v < 2 ^ 64) :
    ((guint32_to_str_buf u cap).length ≤ cap ∧
     (1 ≤ cap → (guint32_to_str_buf u cap).getLast? = some nulChar) ∧
     (cap = 0 → guint32_to_str_buf u cap = []) ∧
     (1 ≤ cap → cap < guint32_to_str_buf_len u + 1 →
       guint32_to_str_buf u cap = BUF_TOO_SMALL_ERR.take (cap - 1) ++ [nulChar])) ∧
    ((guint64_to_str_buf v cap).length ≤ cap ∧
     (1 ≤ cap → (guint64_to_str_buf v cap).getLast? = some nulChar) ∧
     (cap = 0 → guint64_to_str_buf v cap = []) ∧
     (1 ≤ cap → cap < guint64_to_str_buf_len v + 1 →
       guint64_to_str_buf v cap = BUF_TOO_SMALL_ERR.take (cap - 1) ++ [nulChar])) := by
  have herr : BUF_TOO_SMALL_ERR.length = 18 := by decide
  constructor
  · unfold guint32_to_str_buf
    by_cases h : cap < guint32_to_str_buf_len u + 1
    · rw [if_pos h]
      unfold g_strlcpy_writes
      by_cases c0 : cap = 0
      · rw [if_pos c0]
        simp [c0]
      · rw [if_neg c0]
        refine ⟨?_, fun _ => List.getLast?_concat _, fun hc => absurd hc c0,
          fun _ _ => rfl⟩
        simp only [List.length_append, List.length_take, List.length_cons,
          List.length_nil, herr]
        omega
    · rw [if_neg h]
      rw [uint_to_str_back_eq]
      have hlen : (Nat.toDigits 10 u).length = guint32_to_str_buf_len u :=
        (guint32_to_str_buf_len_eq hu).symm
      refine ⟨?_, fun _ => List.getLast?_concat _, fun hc => by omega,
        fun _ hc => by omega⟩
      simp only [List.length_append, List.length_cons, List.length_nil, hlen]
      omega
  · unfold guint64_to_str_buf
    by_cases h : cap < guint64_to_str_buf_len v + 1
    · rw [if_pos h]
      unfold g_strlcpy_writes
      by_cases c0 : cap = 0
      · rw [if_pos c0]
        simp [c0]
      · rw [if_neg c0]
        refine ⟨?_, fun _ => List.getLast?_concat _, fun hc => absurd hc c0,
          fun _ _ => rfl⟩
        simp only [List.length_append, List.length_take, List.length_cons,
          List.length_nil, herr]
        omega
    · rw [if_neg h]
      rw [uint64_to_str_back_eq]
      have hlen : (Nat.toDigits 10 v).length = guint64_to_str_buf_len v :=
        (guint64_to_str_buf_len_eq hv).symm
      refine ⟨?_, fun _ => List.getLast?_concat _, fun hc => by omega,
        fun _ hc => by omega⟩
      simp only [List.length_append, List.length_cons, List.length_nil, hlen]
      omega

/-- C5 witness: instantiation at the largest 32-bit and 64-bit values with
capacity 1 (a capacity failure). -/
theorem str_buf_always_terminated_witness :
    4294967295 < 2 ^ 32 ∧ 18446744073709551615 < 2 ^ 64 ∧
    (guint32_to_str_buf 4294967295 1).length ≤ 1 ∧
    (guint32_to_str_buf 4294967295 1).getLast? = some nulChar ∧
    guint32_to_str_buf 4294967295 1 = BUF_TOO_SMALL_ERR.take (1 - 1) ++ [nulChar] ∧
    (guint64_to_str_buf 18446744073709551615 1).getLast? = some nulChar := by
  have h := str_buf_always_terminated 4294967295 18446744073709551615 1
    (by decide) (by decide)
  exact ⟨by decide, by decide, h.1.1, h.1.2.1 (by decide),
    h.1.2.2.2 (by decide) (by decide), h.2.2.1 (by decide)⟩

/-! ### Hex dump formatters -/

theorem hex_digits_getD_eq {m : Nat} (h : m < 16) :
    hex_digits.getD m '0' = Nat.digitChar m := by
  interval_cases m <;> rfl

theorem and_fifteen (x : Nat) : x &&& 15 = x % 16 := by
  have h := Nat.and_pow_two_sub_one_eq_mod x 4
  norm_num at h
  exact h

theorem byte_to_hex_eq_spec {b : Nat} (hb : b < 256) :
    byte_to_hex b = specHexByte b := by
  unfold byte_to_hex specHexByte low_nibble_of_octet_to_hex
  have h1 : b >>> 4 &&& 0xF = b / 16 := by
    rw [Nat.shiftRight_eq_div_pow, and_fifteen]
    norm_num
    omega
  have h2 : b &&& 0xF = b % 16 := and_fifteen b
  rw [h1, h2, hex_digits_getD_eq (by omega), hex_digits_getD_eq (by omega)]

theorem bytes_to_hexstr_eq_spec (a : Nat → Nat) :
    ∀ len, (∀ i, i < len → a i < 256) →
      bytes_to_hexstr a len = specHexDump a len := by
  intro len
  induction len with
  | zero => intro; rfl
  | succ n ih =>
    intro hb
    unfold bytes_to_hexstr specHexDump
    rw [List.range_succ, List.flatMap_append, List.flatMap_append]
    rw [show (List.range n).flatMap (fun i => byte_to_hex (a i)) =
      bytes_to_hexstr a n from rfl]
    rw [show (List.range n).flatMap (fun i => specHexByte (a i)) =
      specHexDump a n from rfl]
    rw [ih (fun i hi => hb i (by omega))]
    simp [byte_to_hex_eq_spec (hb n (by omega))]

theorem specHexDump_length (a : Nat → Nat) (len : Nat) :
    (specHexDump a len).length = 2 * len := by
  induction len with
  | zero => rfl
  | succ n ih =>
    unfold specHexDump
    rw [List.range_succ, List.flatMap_append]
    rw [show (List.range n).flatMap (fun i => specHexByte (a i)) =
      specHexDump a n from rfl]
    simp only [List.length_append, ih, List.flatMap_cons, List.flatMap_nil,
      List.append_nil, specHexByte, List.length_cons, List.length_nil]
    omega

theorem digitChar_ne_ellipsis {d : Nat} (h : d < 16) :
    Nat.digitChar d ≠ Char.ofNat 8230 := by
  interval_cases d <;> decide

theorem ellipsis_not_mem_specHexDump (a : Nat → Nat) (len : Nat)
    (hb : ∀ i, i < len → a i < 256) :
    Char.ofNat 8230 ∉ specHexDump a len := by
  intro hmem
  unfold specHexDump at hmem
  rw [List.mem_flatMap] at hmem
  obtain ⟨i, hi, hc⟩ := hmem
  have hbi : a i < 256 := hb i (List.mem_range.mp hi)
  simp only [specHexByte, List.mem_cons, List.not_mem_nil, or_false] at hc
  rcases hc with h | h
  · exact digitChar_ne_ellipsis (by omega) h.symm
  · exact digitChar_ne_ellipsis (by omega) h.symm

theorem bytes_to_str_some_step (a : Nat → Nat) (len : Nat) :
    bytes_to_str (some a) len =
      if len = 0 then Except.ok []
      else Except.ok (bytes_to_hexstr a
          (if MAX_BYTE_STR_LEN / 2 < len then MAX_BYTE_STR_LEN / 2 else len) ++
        if MAX_BYTE_STR_LEN / 2 < len then horizontalEllipsis else []) := rfl

theorem bytestring_to_str_some_step (a : Nat → Nat) (len : Nat) (punct : Char) :
    bytestring_to_str (some a) len punct =
      if len = 0 then Except.ok []
      else if punct = nulChar then bytes_to_str (some a) len
      else Except.ok (bytes_to_hexstr_punct a
          (if MAX_BYTE_STR_LEN / 3 < len then MAX_BYTE_STR_LEN / 3 else len)
          punct ++
        if MAX_BYTE_STR_LEN / 3 < len then punct :: horizontalEllipsis else []) :=
  rfl

theorem bytes_to_str_some_ne_error (a : Nat → Nat) (len : Nat) (e : String) :
    bytes_to_str (some a) len ≠ Except.error e := by
  rw [bytes_to_str_some_step]
  by_cases h0 : len = 0
  · simp [h0]
  · simp [h0]

/-- C2 (amended): the unpunctuated hex dump ceiling is MAX_BYTE_STR_LEN / 2 =
36 bytes, not 24: a sequence of at most 36 bytes is encoded in full with no
ellipsis, and a longer sequence is encoded as its first 36 bytes (72 hex
characters) followed by a single ellipsis marker. -/
theorem bytes_to_str_truncation (a : Nat → Nat) (len : Nat)
    (hb : ∀ i, i < len → a i < 256) :
    MAX_BYTE_STR_LEN / 2 = 36 ∧
    (len ≤ 36 →
      bytes_to_str (some a) len = Except.ok (specHexDump a len) ∧
      (specHexDump a len).length = 2 * len ∧
      Char.ofNat 8230 ∉ specHexDump a len) ∧
    (36 < len →
      bytes_to_str (some a) len =
        Except.ok (specHexDump a 36 ++ horizontalEllipsis) ∧
      (specHexDump a 36).length = 72) := by
  refine ⟨rfl, fun hle => ?_, fun hgt => ?_⟩
  · refine ⟨?_, specHexDump_length a len, ellipsis_not_mem_specHexDump a len hb⟩
    rw [bytes_to_str_some_step]
    by_cases h0 : len = 0
    · subst h0
      rfl
    · rw [if_neg h0]
      have hnt : ¬ (MAX_BYTE_STR_LEN / 2 < len) := by
        unfold MAX_BYTE_STR_LEN
        omega
      rw [if_neg hnt, if_neg hnt, List.append_nil]
      rw [bytes_to_hexstr_eq_spec a len hb]
  · have h0 : ¬ (len = 0) := by omega
    have ht : MAX_BYTE_STR_LEN / 2 < len := by
      unfold MAX_BYTE_STR_LEN
      omega
    rw [bytes_to_str_some_step]
    rw [if_neg h0, if_pos ht, if_pos ht]
    rw [show MAX_BYTE_STR_LEN / 2 = 36 from rfl]
    rw [bytes_to_hexstr_eq_spec a 36 (fun i hi => hb i (by omega))]
    exact ⟨rfl, by rw [specHexDump_length]⟩

/-- C2 counterexample: a 25-byte sequence is longer than 24 bytes, yet its
unpunctuated dump is the full 50-character encoding with no ellipsis marker,
not 48 characters plus an ellipsis. -/
theorem bytes_to_str_25_bytes_counterexample :
    bytes_to_str (some (fun i => i + 1)) 25 =
      Except.ok (specHexDump (fun i => i + 1) 25) ∧
    (specHexDump (fun i => i + 1) 25).length = 50 ∧
    Char.ofNat 8230 ∉ specHexDump (fun i => i + 1) 25 :=
  ⟨rfl, rfl, by decide⟩

/-- C2 witness: a 37-byte sequence is truncated to 36 bytes plus the
ellipsis. -/
theorem bytes_to_str_truncation_witness :
    (∀ i, i < 37 → (fun j : Nat => j % 256) i < 256) ∧
    bytes_to_str (some (fun j : Nat => j % 256)) 37 =
      Except.ok (specHexDump (fun j : Nat => j % 256) 36 ++ horizontalEllipsis) :=
  ⟨fun i _ => Nat.mod_lt i (by omega),
   ((bytes_to_str_truncation (fun j : Nat => j % 256) 37
      (fun i _ => Nat.mod_lt i (by omega))).2.2 (by omega)).1⟩

/-- C6 (amended): a zero-length sequence yields the empty string, not an
error; in bytestring_to_str a null pointer is fatal exactly when the length
is nonzero, but bytes_to_str checks the pointer before the length and so is
fatal on a null pointer even when the declared length is 0. -/
theorem hex_dump_empty_and_null (ad : Option (Nat → Nat)) (len : Nat)
    (punct : Char) :
    (len = 0 → bytestring_to_str ad len punct = Except.ok []) ∧
    ((∃ e, bytestring_to_str ad len punct = Except.error e) ↔
      ad = none ∧ len ≠ 0) ∧
    ((∃ e, bytes_to_str ad len = Except.error e) ↔ ad = none) ∧
    (∀ a : Nat → Nat, len = 0 → bytes_to_str (some a) len = Except.ok []) := by
  refine ⟨fun h0 => by simp [bytestring_to_str, h0], ?_, ?_,
    fun a h0 => by rw [bytes_to_str_some_step, if_pos h0]⟩
  · constructor
    · rintro ⟨e, he⟩
      by_cases h0 : len = 0
      · simp [bytestring_to_str, h0] at he
      · cases ad with
        | none => exact ⟨rfl, h0⟩
        | some a =>
          exfalso
          rw [bytestring_to_str_some_step, if_neg h0] at he
          by_cases hp : punct = nulChar
          · rw [if_pos hp] at he
            exact bytes_to_str_some_ne_error a len e he
          · rw [if_neg hp] at he
            simp at he
    · rintro ⟨rfl, h0⟩
      refine ⟨"Null pointer passed to bytestring_to_str()", ?_⟩
      unfold bytestring_to_str
      rw [if_neg h0]

  · constructor
    · rintro ⟨e, he⟩
      cases ad with
      | none => rfl
      | some a => exact absurd he (bytes_to_str_some_ne_error a len e)
    · rintro rfl
      exact ⟨"Null pointer passed to bytes_to_str()", rfl⟩

/-- C6 counterexample: bytes_to_str called with a null pointer and declared
length 0 triggers the fatal contract-violation report, so the fatal report is
not triggered only when the declared length is nonzero. -/
theorem bytes_to_str_null_zero_counterexample :
    bytes_to_str none 0 = Except.error "Null pointer passed to bytes_to_str()" ∧
    bytestring_to_str none 0 ':' = Except.ok [] :=
  ⟨rfl, rfl⟩

/-- C6 witness: instantiations of the amended statement. -/
theorem hex_dump_empty_and_null_witness :
    (∃ e, bytestring_to_str none 5 ':' = Except.error e) ∧
    (∃ e, bytes_to_str none 5 = Except.error e) ∧
    bytestring_to_str (some (fun _ => 0)) 0 ':' = Except.ok [] ∧
    bytes_to_str (some (fun _ => 0)) 0 = Except.ok [] := by
  have h1 := hex_dump_empty_and_null none 5 ':'
  have h2 := hex_dump_empty_and_null (some (fun _ => 0)) 0 ':'
  exact ⟨h1.2.1.mpr ⟨rfl, by omega⟩, h1.2.2.1.mpr rfl, h2.1 rfl,
    h2.2.2.2 (fun _ => 0) rfl⟩

/-! ### GUID formatting -/

theorem nibble_eq_spec (v j : Nat) :
    low_nibble_of_octet_to_hex (v >>> (4 * j)) = Nat.digitChar (v / 16 ^ j % 16) := by
  unfold low_nibble_of_octet_to_hex
  have h1 : v >>> (4 * j) &&& 0xF = v / 16 ^ j % 16 := by
    rw [Nat.shiftRight_eq_div_pow, and_fifteen, Nat.pow_mul]
  rw [h1, hex_digits_getD_eq (Nat.mod_lt _ (by omega))]

theorem byte_to_hex_nibbles (v : Nat) :
    byte_to_hex v = [Nat.digitChar (v / 16 ^ 1 % 16), Nat.digitChar (v / 16 ^ 0 % 16)] := by
  unfold byte_to_hex
  have h0 := nibble_eq_spec v 0
  have h1 := nibble_eq_spec v 1
  rw [show 4 * 1 = 4 from rfl] at h1
  rw [show 4 * 0 = 0 from rfl] at h0
  rw [show v >>> 0 = v from Nat.shiftRight_zero] at h0
  rw [h1, h0]

theorem word_to_hex_eq_spec (w : Nat) : word_to_hex w = specHexFixed w 4 := by
  unfold word_to_hex specHexFixed
  rw [byte_to_hex_nibbles, byte_to_hex_nibbles]
  have e1 : w >>> 8 / 16 ^ 1 % 16 = w / 16 ^ 3 % 16 := by
    rw [Nat.shiftRight_eq_div_pow, Nat.div_div_eq_div_mul]
    norm_num
  have e2 : w >>> 8 / 16 ^ 0 % 16 = w / 16 ^ 2 % 16 := by
    rw [Nat.shiftRight_eq_div_pow, Nat.div_div_eq_div_mul]
    norm_num
  rw [e1, e2]
  rfl

theorem dword_to_hex_eq_spec (d : Nat) : dword_to_hex d = specHexFixed d 8 := by
  unfold dword_to_hex specHexFixed
  rw [word_to_hex_eq_spec, word_to_hex_eq_spec]
  unfold specHexFixed
  have e : ∀ j : Nat, d >>> 16 / 16 ^ j % 16 = d / 16 ^ (4 + j) % 16 := by
    intro j
    rw [Nat.shiftRight_eq_div_pow, Nat.div_div_eq_div_mul, Nat.pow_add]
  simp only [List.range_succ, List.range_zero, List.map_append, List.map_cons,
    List.map_nil, List.nil_append, List.cons_append, List.append_nil, e]

theorem specGuidText_length (guid : EGuid) : (specGuidText guid).length = 36 := by
  unfold specGuidText
  simp only [List.length_append, specHexDump_length]
  rfl

/-- C8: guid_to_str_buf with capacity at least 37 writes the canonical
36-character hyphenated lowercase hex form of the GUID followed by a NUL,
and with a smaller capacity writes the sentinel diagnostic instead. -/
theorem guid_to_str_buf_correct (guid : EGuid)
    (hb : ∀ i, i < 8 → guid.data4 i < 256) (buf_len : Nat) :
    (specGuidText guid).length = 36 ∧
    (GUID_STR_LEN ≤ buf_len →
      guid_to_str_buf guid buf_len = specGuidText guid ++ [nulChar]) ∧
    (buf_len < GUID_STR_LEN → 1 ≤ buf_len →
      guid_to_str_buf guid buf_len =
        BUF_TOO_SMALL_ERR.take (buf_len - 1) ++ [nulChar]) := by
  refine ⟨specGuidText_length guid, fun h => ?_, fun h h1 => ?_⟩
  · unfold guid_to_str_buf
    rw [if_neg (by omega)]
    unfold specGuidText
    rw [dword_to_hex_eq_spec, word_to_hex_eq_spec, word_to_hex_eq_spec]
    rw [bytes_to_hexstr_eq_spec _ 2 (fun i hi => hb i (by omega))]
    rw [bytes_to_hexstr_eq_spec _ 6 (fun i hi => hb (2 + i) (by omega))]
  · unfold guid_to_str_buf
    rw [if_pos h]
    unfold g_strlcpy_writes
    rw [if_neg (by omega)]

/-- C8 witness: the GUID from the spec example renders to its canonical
text. -/
theorem guid_to_str_buf_correct_witness :
    (∀ i, i < 8 →
      (EGuid.mk 0x01020304 0x0506 0x0708
        (fun i => [9, 10, 11, 12, 13, 14, 15, 16].getD i 0)).data4 i < 256) ∧
    guid_to_str_buf
        (EGuid.mk 0x01020304 0x0506 0x0708
          (fun i => [9, 10, 11, 12, 13, 14, 15, 16].getD i 0)) 37 =
      specGuidText
        (EGuid.mk 0x01020304 0x0506 0x0708
          (fun i => [9, 10, 11, 12, 13, 14, 15, 16].getD i 0)) ++ [nulChar] ∧
    specGuidText
        (EGuid.mk 0x01020304 0x0506 0x0708
          (fun i => [9, 10, 11, 12, 13, 14, 15, 16].getD i 0)) =
      "01020304-0506-0708-090a-0b0c0d0e0f10".data := by
  refine ⟨by decide, ?_, by decide⟩
  exact (guid_to_str_buf_correct _ (by decide) 37).2.1 (by decide)

/-! ### Duration formatting and IPv6 -/

/-- C3: at the minimum signed 32-bit value the formatter takes the
special-case branch and does not negate; but the magnitude it renders is
G_MAXUINT32 = 4294967295, not the true absolute value 2147483648, so the
output decomposes the wrong magnitude (a slip the code comment itself
mislabels as the absolute value). -/
theorem signed_time_min32_eval :
    signed_time_secs_to_str_buf (-2147483648) 0 false [] =
      "-49710 days, 6 hours, 28 minutes, 15 seconds".data ∧
    unsigned_time_secs_to_str_buf 2147483648 0 false "-".data =
      "-24855 days, 3 hours, 14 minutes, 8 seconds".data ∧
    "-49710 days, 6 hours, 28 minutes, 15 seconds".data ≠
      "-24855 days, 3 hours, 14 minutes, 8 seconds".data :=
  ⟨rfl, rfl, by decide⟩

/-- C4: the produced length is under-reported by one: for the address text
:: (length 2) with ample capacity the routine returns 1; and for a 15
character address text with capacity 15 the text is truncated to 14
characters yet no sentinel is written and 14 is returned, so truncation is
not detected. -/
theorem ip6_to_str_buf_with_pfx_eval :
    (ip6_to_str_buf_with_pfx "::".data 46 none).2 = 1 ∧
    ("::".data).length = 2 ∧
    (ip6_to_str_buf_with_pfx "::".data 46 none).1 = "::".data ++ [nulChar] ∧
    (ip6_to_str_buf_with_pfx "1:2:3:4:5:6:7:8".data 15 none).1 =
      "1:2:3:4:5:6:7:".data ++ [nulChar] ∧
    (ip6_to_str_buf_with_pfx "1:2:3:4:5:6:7:8".data 15 none).2 = 14 ∧
    ("1:2:3:4:5:6:7:8".data).length = 15 := by
  refine ⟨by decide, by decide, by decide, by decide, by decide, by decide⟩

/-! ### Bit-field visualizer -/

theorem range_flatMap_succ_left (n : Nat) (f : Nat → List Char) :
    (List.range (n + 1)).flatMap f =
      f 0 ++ (List.range n).flatMap (fun t => f (t + 1)) := by
  rw [List.range_succ_eq_map, List.flatMap_cons, List.flatMap_map]

theorem flatMap_congr_of_mem {l : List Nat} {f g : Nat → List Char}
    (h : ∀ a ∈ l, f a = g a) : l.flatMap f = l.flatMap g := by
  induction l with
  | nil => rfl
  | cons x t ih =>
    rw [List.flatMap_cons, List.flatMap_cons, h x (List.mem_cons_self x t),
      ih (fun a ha => h a (List.mem_cons_of_mem x ha))]

theorem decode_bits_dots_eq :
    ∀ (n bit : Nat) (acc : List Char),
      decode_bits_dots bit (bit + n) acc =
        acc ++ (List.range n).flatMap (fun t => spaceIfMul4 (bit + t) ++ ['.']) := by
  intro n
  induction n with
  | zero =>
    intro bit acc
    rw [decode_bits_dots, if_neg (by omega)]
    simp
  | succ n ih =>
    intro bit acc
    rw [decode_bits_dots, if_pos (by omega)]
    rw [show bit + (n + 1) = (bit + 1) + n from by omega, ih (bit + 1) _]
    rw [range_flatMap_succ_left]
    have hfun : (fun t => spaceIfMul4 (bit + (t + 1)) ++ (['.'] : List Char)) =
        fun t => spaceIfMul4 (bit + 1 + t) ++ ['.'] := by
      funext t
      rw [show bit + (t + 1) = bit + 1 + t from by omega]
    simp only [hfun, Nat.add_zero, List.append_assoc]

theorem decode_bits_value_eq :
    ∀ (n i bit mask value : Nat) (acc : List Char) (mb : Nat),
      i + n = mb → (n = 0 ∨ mask = 2 ^ (mb - 1 - i)) →
      decode_bits_value i mb bit mask value acc =
        (acc ++ (List.range n).flatMap (fun t =>
          specBitSpacing (bit + t) ++
            [if value.testBit (mb - 1 - i - t) then '1' else '0']),
         bit + n) := by
  intro n
  induction n with
  | zero =>
    intro i bit mask value acc mb hsum hmask
    rw [decode_bits_value, if_neg (by omega)]
    simp
  | succ n ih =>
    intro i bit mask value acc mb hsum hmask
    rcases hmask with h | hmask
    · omega
    rw [decode_bits_value, if_pos (by omega)]
    have hchar : (if value &&& mask ≠ 0 then '1' else '0') =
        (if value.testBit (mb - 1 - i) then '1' else '0') := by
      refine if_congr ?_ rfl rfl
      rw [hmask, Nat.and_two_pow]
      cases hv : value.testBit (mb - 1 - i) <;> simp [hv]
    have hmask2 : n = 0 ∨ mask >>> 1 = 2 ^ (mb - 1 - (i + 1)) := by
      by_cases hn0 : n = 0
      · exact Or.inl hn0
      · refine Or.inr ?_
        rw [hmask, show mb - 1 - i = (mb - 1 - (i + 1)) + 1 from by omega,
          Nat.pow_succ, Nat.shiftRight_eq_div_pow]
        omega
    simp only [hchar]
    rw [ih (i + 1) (bit + 1) (mask >>> 1) value _ mb (by omega) hmask2]
    rw [range_flatMap_succ_left, Prod.mk.injEq]
    refine ⟨?_, by omega⟩
    simp only [Nat.sub_zero, Nat.add_zero, specBitSpacing, List.append_assoc]
    have hfun : ∀ t : Nat, spaceIfMul4 (bit + 1 + t) ++ (spaceIfMul8 (bit + 1 + t) ++
        [if value.testBit (mb - 1 - (i + 1) - t) = true then '1' else '0']) =
        spaceIfMul4 (bit + (t + 1)) ++ (spaceIfMul8 (bit + (t + 1)) ++
        [if value.testBit (mb - 1 - i - (t + 1)) = true then '1' else '0']) := by
      intro t
      rw [show bit + 1 + t = bit + (t + 1) from by omega,
        show mb - 1 - (i + 1) - t = mb - 1 - i - (t + 1) from by omega]
    rw [funext hfun]

theorem decode_bits_pad_eq :
    ∀ (n bit : Nat) (acc : List Char), (8 - bit % 8) % 8 ≤ n →
      decode_bits_pad bit acc =
        acc ++ (List.range ((8 - bit % 8) % 8)).flatMap
          (fun t => spaceIfMul4 (bit + t) ++ ['.']) := by
  intro n
  induction n with
  | zero =>
    intro bit acc h
    rw [decode_bits_pad, if_neg (by omega)]
    rw [show (8 - bit % 8) % 8 = 0 from by omega]
    simp
  | succ n ih =>
    intro bit acc h
    by_cases h8 : bit % 8 = 0
    · rw [decode_bits_pad, if_neg (by omega)]
      rw [show (8 - bit % 8) % 8 = 0 from by omega]
      simp
    · rw [decode_bits_pad, if_pos (by omega)]
      rw [ih (bit + 1) _ (by omega)]
      rw [show (8 - bit % 8) % 8 = (8 - (bit + 1) % 8) % 8 + 1 from by omega,
        range_flatMap_succ_left]
      have hfun : (fun t => spaceIfMul4 (bit + (t + 1)) ++ (['.'] : List Char)) =
          fun t => spaceIfMul4 (bit + 1 + t) ++ ['.'] := by
        funext t
        rw [show bit + (t + 1) = bit + 1 + t from by omega]
      simp only [hfun, Nat.add_zero, List.append_assoc]

/-- C9: for bit offsets 0-7 and widths of at least 1 (capped at 64),
decode_bits_in_field produces exactly the spec picture: one placeholder dot
per skipped bit, then the field bits most significant first, then placeholder
dots padding the final byte, with the 4-bit and 8-bit group spacing rule at
every position. -/
theorem decode_bits_in_field_correct (bit_offset : Nat) (hoff : bit_offset < 8)
    (no_of_bits : Int) (hw : 1 ≤ no_of_bits) (value : Nat)
    (hv : value < 2 ^ 64) :
    decode_bits_in_field bit_offset no_of_bits value =
      specBitfield bit_offset (min 64 no_of_bits).toNat value := by
  have hoff7 : bit_offset &&& 0x07 = bit_offset := by
    have h := Nat.and_pow_two_sub_one_eq_mod bit_offset 3
    norm_num at h
    omega
  set mb := (min (64:Int) no_of_bits).toNat with hmbdef
  have hmb1 : 1 ≤ mb := by omega
  have hshift : (decode_bits_mask_shift no_of_bits).toNat = mb - 1 := by
    unfold decode_bits_mask_shift
    omega
  unfold decode_bits_in_field
  rw [hshift, hoff7]
  simp only [Nat.one_shiftLeft]
  have hmin : (min (64:Int) no_of_bits).toNat = mb := rfl
  rw [hmin]
  rw [show bit_offset = 0 + bit_offset from (Nat.zero_add bit_offset).symm]
  rw [decode_bits_dots_eq bit_offset 0 []]
  rw [Nat.zero_add]
  rw [decode_bits_value_eq mb 0 bit_offset (2 ^ (mb - 1)) value _ mb
    (Nat.zero_add mb) (Or.inr rfl)]
  rw [decode_bits_pad_eq 8 (bit_offset + mb) _ (by omega)]
  rw [specBitfield]
  have hL : (bit_offset + mb + 7) / 8 * 8 =
      bit_offset + (mb + (8 - (bit_offset + mb) % 8) % 8) := by omega
  rw [hL, List.range_add, List.flatMap_append, List.flatMap_map,
    List.range_add, List.flatMap_append, List.flatMap_map]
  simp only [List.nil_append, List.append_assoc]
  have hseg1 : (List.range bit_offset).flatMap
      (fun t => spaceIfMul4 (0 + t) ++ ['.']) =
      (List.range bit_offset).flatMap (fun j => specBitSpacing j ++
        [specBitChar bit_offset mb value j]) := by
    apply flatMap_congr_of_mem
    intro t ht
    have htlt : t < bit_offset := List.mem_range.mp ht
    rw [Nat.zero_add]
    unfold specBitSpacing specBitChar spaceIfMul8
    rw [if_pos (Or.inl htlt)]
    rw [if_neg (show ¬ (t ≠ 0 ∧ t % 8 = 0) from by omega)]
    simp
  have hseg2 : (List.range mb).flatMap (fun t => specBitSpacing (bit_offset + t)
      ++ [if value.testBit (mb - 1 - 0 - t) = true then '1' else '0']) =
      (List.range mb).flatMap ((fun j => specBitSpacing j ++
        [specBitChar bit_offset mb value j]) ∘ (fun j => bit_offset + j)) := by
    apply flatMap_congr_of_mem
    intro t ht
    have htlt : t < mb := List.mem_range.mp ht
    simp only [Function.comp_def]
    unfold specBitChar
    rw [if_neg (show ¬ (bit_offset + t < bit_offset ∨
      bit_offset + mb ≤ bit_offset + t) from by omega)]
    rw [show bit_offset + t - bit_offset = t from by omega,
      show mb - 1 - 0 - t = mb - 1 - t from by omega]
  have hseg3 : (List.range ((8 - (bit_offset + mb) % 8) % 8)).flatMap
      (fun t => spaceIfMul4 (bit_offset + mb + t) ++ ['.']) =
      (List.range ((8 - (bit_offset + mb) % 8) % 8)).flatMap
        ((fun j => specBitSpacing j ++ [specBitChar bit_offset mb value j]) ∘
          (fun j => bit_offset + (mb + j))) := by
    apply flatMap_congr_of_mem
    intro t ht
    have htlt : t < (8 - (bit_offset + mb) % 8) % 8 := List.mem_range.mp ht
    simp only [Function.comp_def]
    unfold specBitSpacing specBitChar spaceIfMul8
    rw [show bit_offset + (mb + t) = bit_offset + mb + t from by omega]
    rw [if_pos (Or.inr (show bit_offset + mb ≤ bit_offset + mb + t by omega))]
    rw [if_neg (show ¬ (bit_offset + mb + t ≠ 0 ∧ (bit_offset + mb + t) % 8 = 0)
      from by omega)]
    simp
  rw [hseg1, hseg2, hseg3]
  simp only [Function.comp_def]

/-- C9 witness: the spec example bit_offset 3, width 5, value 0b10110. -/
theorem decode_bits_in_field_correct_witness :
    3 < 8 ∧ (1:Int) ≤ 5 ∧ 22 < 2 ^ 64 ∧
    decode_bits_in_field 3 5 22 = specBitfield 3 (min (64:Int) 5).toNat 22 ∧
    specBitfield 3 (min (64:Int) 5).toNat 22 = "...1 0110".data :=
  ⟨by decide, by decide, by decide,
   decode_bits_in_field_correct 3 (by decide) 5 (by decide) 22 (by decide),
   by decide⟩

/-- C10: the shift distance used to build the initial bit mask lies in the
defined range 0-63 exactly when the field width is at least 1; a
non-positive width would demand a negative shift distance. -/
theorem decode_bits_mask_shift_defined (no_of_bits : Int) :
    (0 ≤ decode_bits_mask_shift no_of_bits ∧
      decode_bits_mask_shift no_of_bits ≤ 63) ↔ 1 ≤ no_of_bits := by
  unfold decode_bits_mask_shift
  omega

/-- C10 witness: instantiation at width 5. -/
theorem decode_bits_mask_shift_defined_witness :
    0 ≤ decode_bits_mask_shift 5 ∧ decode_bits_mask_shift 5 ≤ 63 :=
  (decode_bits_mask_shift_defined 5).mpr (by decide)

end ToStr
